import Mathlib

/-!
Verification of the log/event aggregation core of the browser-tools
repository: the bounded event buffers, the payload normalizer, the
settings-driven query endpoints (`src/browser-tools-server/browser-connector.ts`,
`src/chrome-extension/devtools.js`) and the screenshot request/response
correlator (`BrowserConnector` in `browser-connector.ts`).

JavaScript values flowing through the server are modelled by the `Json`
inductive; JS objects are string-keyed field lists (JS object keys are
unique, `delete` removes the key).  JS strings are modelled as `List Char`
(one element per UTF-16 code unit of the source; `s.length` and
`s.substring(0, n)` become `List.length` and `List.take`).
-/

namespace BrowserTools

/-- Model of a JavaScript/JSON value as stored in the server's buffers. -/
inductive Json where
  | jnull : Json
  | jbool : Bool → Json
  | jnum : Int → Json
  | jstr : List Char → Json
  | jarr : List Json → Json
  | jobj : List (String × Json) → Json
deriving Repr

/-- A JS object: the field list of a `Json.jobj` (keys unique, in insertion order). -/
abbrev JsObj := List (String × Json)

mutual
/-- Structural equality test on `Json` (for decidability of equality). -/
def beqJson : Json → Json → Bool
  | .jnull, .jnull => true
  | .jbool a, .jbool b => a == b
  | .jnum a, .jnum b => a == b
  | .jstr a, .jstr b => a == b
  | .jarr a, .jarr b => beqJsonList a b
  | .jobj a, .jobj b => beqJsonFields a b
  | _, _ => false

/-- Structural equality on JSON arrays. -/
def beqJsonList : List Json → List Json → Bool
  | [], [] => true
  | x :: xs, y :: ys => beqJson x y && beqJsonList xs ys
  | _, _ => false

/-- Structural equality on JSON object field lists. -/
def beqJsonFields : List (String × Json) → List (String × Json) → Bool
  | [], [] => true
  | (k, v) :: fs, (k', v') :: fs' => k == k' && beqJson v v' && beqJsonFields fs fs'
  | _, _ => false
end

mutual
/-- Proof that `beqJson` decides equality. -/
def beqJson_iff : ∀ a b : Json, beqJson a b = true ↔ a = b
  | .jnull, b => by cases b <;> simp [beqJson]
  | .jbool a, b => by cases b <;> simp [beqJson]
  | .jnum a, b => by cases b <;> simp [beqJson]
  | .jstr a, b => by cases b <;> simp [beqJson]
  | .jarr a, b => by
    cases b <;> simp only [beqJson, Bool.false_eq_true, false_iff, reduceCtorEq,
      not_false_eq_true, Json.jarr.injEq]
    case jarr b => exact beqJsonList_iff a b
  | .jobj a, b => by
    cases b <;> simp only [beqJson, Bool.false_eq_true, false_iff, reduceCtorEq,
      not_false_eq_true, Json.jobj.injEq]
    case jobj b => exact beqJsonFields_iff a b

/-- Proof that `beqJsonList` decides equality. -/
def beqJsonList_iff : ∀ a b : List Json, beqJsonList a b = true ↔ a = b
  | [], [] => by simp [beqJsonList]
  | x :: xs, y :: ys => by
    simp only [beqJsonList, Bool.and_eq_true, beqJson_iff x y, beqJsonList_iff xs ys,
      List.cons.injEq]
  | [], _ :: _ => by simp [beqJsonList]
  | _ :: _, [] => by simp [beqJsonList]

/-- Proof that `beqJsonFields` decides equality. -/
def beqJsonFields_iff : ∀ a b : List (String × Json), beqJsonFields a b = true ↔ a = b
  | [], [] => by simp [beqJsonFields]
  | (k, v) :: fs, (k', v') :: fs' => by
    simp only [beqJsonFields, Bool.and_eq_true, beq_iff_eq, beqJson_iff v v',
      beqJsonFields_iff fs fs', List.cons.injEq, Prod.mk.injEq, and_assoc]
  | [], _ :: _ => by simp [beqJsonFields]
  | _ :: _, [] => by simp [beqJsonFields]
end

instance : DecidableEq Json := fun a b =>
  decidable_of_iff (beqJson a b = true) (beqJson_iff a b)

/-- The left curly brace character, U+007B. -/
def lbrace : Char := Char.ofNat 123

/-- The right curly brace character, U+007D. -/
def rbrace : Char := Char.ofNat 125

/-- JSON string escaping of a single character (`JSON.stringify` escapes
the quote and the backslash; other characters of our logs pass through). -/
def escapeChar (c : Char) : List Char :=
  if c = '"' ∨ c = '\\' then ['\\', c] else [c]

/-- JSON string escaping, character by character. -/
def escapeStr : List Char → List Char
  | [] => []
  | c :: cs => escapeChar c ++ escapeStr cs

/-- A JSON string literal: quote, escaped body, quote. -/
def serializeString (s : List Char) : List Char :=
  '"' :: (escapeStr s ++ ['"'])

/-- Comma-separated concatenation, as in `JSON.stringify` of arrays/objects. -/
def commaSep : List (List Char) → List Char
  | [] => []
  | [x] => x
  | x :: xs => x ++ ',' :: commaSep xs

mutual
/-- Model of `JSON.stringify` on our `Json` values (used by
`calculateLogSize` / `calculateObjectSize` in the source, which only ever
take the `.length` of the result). -/
def serialize : Json → List Char
  | .jnull => "null".toList
  | .jbool true => "true".toList
  | .jbool false => "false".toList
  | .jnum n => (toString n).toList
  | .jstr s => serializeString s
  | .jarr xs => '[' :: (commaSep (serializeList xs) ++ [']'])
  | .jobj fs => lbrace :: (commaSep (serializeFields fs) ++ [rbrace])

/-- Serialization of the elements of a JSON array, in order. -/
def serializeList : List Json → List (List Char)
  | [] => []
  | x :: xs => serialize x :: serializeList xs

/-- Serialization of the fields of a JSON object, in order. -/
def serializeFields : List (String × Json) → List (List Char)
  | [] => []
  | (k, v) :: fs => (serializeString k.toList ++ ':' :: serialize v) :: serializeFields fs
end

/-- The truncation marker appended by `truncateStringsInData`
(`"... (truncated)"`, 15 characters). -/
def truncMarker : List Char := "... (truncated)".toList

/-- The string branch of `truncateStringsInData`
(browser-connector.ts lines 62-66, devtools.js lines 45-53):
`data.length > maxLength ? data.substring(0, maxLength) + "... (truncated)" : data`. -/
def truncateString (maxLength : Nat) (s : List Char) : List Char :=
  if maxLength < s.length then s.take maxLength ++ truncMarker else s

mutual
/-- Model of `truncateStringsInData(data, maxLength)`
(browser-connector.ts lines 61-81): recursively truncate every string
leaf, preserving arrays (order and element count) and object keys. -/
def truncateStringsInData (maxLength : Nat) : Json → Json
  | .jnull => .jnull
  | .jbool b => .jbool b
  | .jnum n => .jnum n
  | .jstr s => .jstr (truncateString maxLength s)
  | .jarr xs => .jarr (truncateStringsInList maxLength xs)
  | .jobj fs => .jobj (truncateStringsInFields maxLength fs)

/-- The `data.map((item) => truncateStringsInData(item, maxLength))` branch. -/
def truncateStringsInList (maxLength : Nat) : List Json → List Json
  | [] => []
  | x :: xs => truncateStringsInData maxLength x :: truncateStringsInList maxLength xs

/-- The `for (const [key, value] of Object.entries(data))` branch. -/
def truncateStringsInFields (maxLength : Nat) : List (String × Json) → List (String × Json)
  | [] => []
  | (k, v) :: fs => (k, truncateStringsInData maxLength v) :: truncateStringsInFields maxLength fs
end

/-- Model of `calculateObjectSize(obj)` (devtools.js lines 88-90):
`JSON.stringify(obj).length`. -/
def calculateObjectSize (obj : Json) : Nat := (serialize obj).length

/-- Model of `processArrayWithSizeLimit(array, maxTotalSize, processFunc)`
(devtools.js lines 93-119): process the elements in order, keep a running
byte total of the processed elements, `break` as soon as the next
processed element would push the total past `maxTotalSize`.  The extra
`acc` argument is the loop's `currentSize` accumulator (the endpoint calls
it with `acc = 0`). -/
def processArrayWithSizeLimit (maxTotalSize : Nat) (processFunc : Json → Json) :
    Nat → List Json → List Json
  | _, [] => []
  | acc, item :: rest =>
    let processedItem := processFunc item
    let itemSize := calculateObjectSize processedItem
    if maxTotalSize < acc + itemSize then []
    else processedItem :: processArrayWithSizeLimit maxTotalSize processFunc (acc + itemSize) rest

/-- Model of the `currentSettings` record (browser-connector.ts lines 30-39).
`model` and `screenshotPath` are carried along but never read by the
operations verified here. -/
structure Settings where
  logLimit : Nat
  queryLimit : Nat
  showRequestHeaders : Bool
  showResponseHeaders : Bool
  model : String
  stringSizeLimit : Nat
  maxLogSize : Nat
  screenshotPath : String
deriving Repr

/-- The initial value of `currentSettings` (browser-connector.ts lines 30-39). -/
def defaultSettings : Settings where
  logLimit := 50
  queryLimit := 30000
  showRequestHeaders := false
  showResponseHeaders := false
  model := "claude-3-sonnet"
  stringSizeLimit := 500
  maxLogSize := 20000
  screenshotPath := ""

/-- Property access `log.key` on a JS object: the value of the first (and,
keys being unique, only) binding of `key`, or `undefined` (`none`). -/
def lookupField (log : JsObj) (key : String) : Option Json :=
  match log with
  | [] => none
  | (k, v) :: rest => if k = key then some v else lookupField rest key

/-- The statement `delete log.key`: remove every binding of `key`
(JS object keys are unique, so this is the removal of the one binding). -/
def eraseField (log : JsObj) (key : String) : JsObj :=
  match log with
  | [] => []
  | (k, v) :: rest =>
    if k = key then eraseField rest key else (k, v) :: eraseField rest key

/-- The test `data.type === "tag"` on a JS object. -/
def isTypeTag (log : JsObj) (tag : String) : Bool :=
  match lookupField log "type" with
  | some (.jstr s) => s = tag.toList
  | _ => false

/-- The test `log.type === "network-request"`. -/
def isNetworkRequest (log : JsObj) : Bool := isTypeTag log "network-request"

/-- The body of the `logs.map` in `processLogsWithSettings`
(browser-connector.ts lines 100-114): shallow-copy the log
(`{ ...log }`), and if it is a network request delete the
`requestHeaders` / `responseHeaders` fields whose visibility flag is off. -/
def processLog (s : Settings) (log : JsObj) : JsObj :=
  if isNetworkRequest log then
    let p := log
    let p := if s.showRequestHeaders then p else eraseField p "requestHeaders"
    let p := if s.showResponseHeaders then p else eraseField p "responseHeaders"
    p
  else log

/-- Model of `processLogsWithSettings(logs)` (browser-connector.ts
lines 99-115), with the module-level `currentSettings` passed explicitly. -/
def processLogsWithSettings (s : Settings) (logs : List JsObj) : List JsObj :=
  logs.map (processLog s)

/-- Model of `calculateLogSize(log)` (browser-connector.ts lines 118-120):
`JSON.stringify(log).length` for a log entry (an object). -/
def calculateLogSize (log : JsObj) : Nat := (serialize (.jobj log)) |>.length

/-- The `for (const log of processedLogs)` loop of `truncateLogsToQueryLimit`
(browser-connector.ts lines 129-147): accumulate entries in order; `break`
once `currentSize + logSize > queryLimit`.  `acc` is the loop's
`currentSize` (called with `0`). -/
def takeLogsWithinLimit (limit : Nat) : Nat → List JsObj → List JsObj
  | _, [] => []
  | acc, log :: rest =>
    let logSize := calculateLogSize log
    if limit < acc + logSize then []
    else log :: takeLogsWithinLimit limit (acc + logSize) rest

/-- The cumulative serialized size of a list of log entries: the quantity
`truncateLogsToQueryLimit` tracks in `currentSize`. -/
def sumLogSizes (logs : List JsObj) : Nat := (logs.map calculateLogSize).sum

/-- Model of `truncateLogsToQueryLimit(logs)` (browser-connector.ts
lines 123-150): early-return for the empty buffer, re-apply the current
visibility settings, then accumulate under the byte budget. -/
def truncateLogsToQueryLimit (s : Settings) (logs : List JsObj) : List JsObj :=
  if logs.length = 0 then logs
  else takeLogsWithinLimit s.queryLimit 0 (processLogsWithSettings s logs)

/-- Accumulating decimal-digit parser for `parseDigits`. -/
def parseDigitsAux : List Char → Nat → Option Nat
  | [], acc => some acc
  | c :: rest, acc =>
    if c.isDigit then parseDigitsAux rest (acc * 10 + (c.toNat - 48)) else none

/-- Value of a nonempty all-digit character sequence, else `none`. -/
def parseDigits : List Char → Option Nat
  | [] => none
  | cs => parseDigitsAux cs 0

/-- Partial model of JS `Number(string)` as used on a log's `status`
field.  Contract: when this returns `some m`, JS `Number` on that string
yields exactly the number `m` (optionally-signed decimal integer
literals; the empty string coerces to 0).  `none` means the coercion is
*not modelled* — it covers both strings that are NaN in JS and string
shapes this model does not analyse (whitespace-padded, fractional,
exponent, hex, binary/octal, `Infinity`), so no theorem may conclude
anything about the program from `none` alone. -/
def strToNumber (s : List Char) : Option Int :=
  match s with
  | [] => some 0
  | '-' :: rest => (parseDigits rest).map (fun n => -(n : Int))
  | '+' :: rest => (parseDigits rest).map (fun n => (n : Int))
  | _ => (parseDigits s).map (fun n => (n : Int))

/-- Partial model of JS `ToNumber`.  Contract: `some m` means JS
`ToNumber` of the value is exactly the number `m` (`null → 0`, booleans
`→ 0/1`, numbers, and the strings of `strToNumber`'s `some` region).
`none` means the coercion is not modelled — NaN-producing strings, but
also coercions this model does not analyse (non-integer-literal strings,
arrays and objects, whose `ToPrimitive` round-trip can produce numbers
in JS, e.g. `[500] → "500" → 500`).  Routing theorems therefore only
ever assume an absent status or `toNumber _ = some m`, where the model
is exact. -/
def toNumber : Json → Option Int
  | .jnull => some 0
  | .jbool b => some (if b then 1 else 0)
  | .jnum n => some n
  | .jstr s => strToNumber s
  | _ => none

/-- The test `data.status >= 400` (browser-connector.ts line 223).
Exact on an absent status (`undefined >= 400` is false, via NaN) and
whenever `toNumber` returns `some`; on unmodelled coercions
(`toNumber _ = none`) it returns `false` as a stand-in, so statements
about the program are only made under hypotheses that stay inside the
exact region. -/
def jsGe400 (v : Option Json) : Bool :=
  match v with
  | none => false
  | some j =>
    match toNumber j with
    | some n => decide ((400 : Int) ≤ n)
    | none => false

/-- The append discipline of every buffer case of `app.post("/extension-log")`
(browser-connector.ts lines 180-251): `buf.push(entry)` followed by
`if (buf.length > logLimit) buf.shift()`. -/
def boundedAppend (limit : Nat) (buf : List α) (entry : α) : List α :=
  let b := buf ++ [entry]
  if limit < b.length then b.tail else b

/-- Repeated ingestion into one initially empty buffer. -/
def ingestAll (limit : Nat) (entries : List α) : List α :=
  entries.foldl (boundedAppend limit) []

/-- The in-memory state of the aggregation server: the four bounded
buffers (lines 23-26), the selected-element slot (line 42) and
`currentSettings`. -/
structure ServerState where
  consoleLogs : List JsObj
  consoleErrors : List JsObj
  networkErrors : List JsObj
  networkSuccess : List JsObj
  selectedElement : Option Json
  settings : Settings

/-- The server state at process start. -/
def serverInit : ServerState where
  consoleLogs := []
  consoleErrors := []
  networkErrors := []
  networkSuccess := []
  selectedElement := none
  settings := defaultSettings

/-- The `switch (data.type)` classification-and-store step of
`app.post("/extension-log")` (browser-connector.ts lines 180-251):
console logs/errors go to their buffer, network requests are routed on
`data.status >= 400`, `selected-element` overwrites the single slot, and
an unknown type stores nothing. -/
def ingestData (st : ServerState) (data : JsObj) : ServerState :=
  if isTypeTag data "console-log" then
    { st with consoleLogs := boundedAppend st.settings.logLimit st.consoleLogs data }
  else if isTypeTag data "console-error" then
    { st with consoleErrors := boundedAppend st.settings.logLimit st.consoleErrors data }
  else if isTypeTag data "network-request" then
    if jsGe400 (lookupField data "status") then
      { st with networkErrors := boundedAppend st.settings.logLimit st.networkErrors data }
    else
      { st with networkSuccess := boundedAppend st.settings.logLimit st.networkSuccess data }
  else if isTypeTag data "selected-element" then
    { st with selectedElement := lookupField data "element" }
  else st

/-- The value `new Date(log.timestamp).getTime()` used by the `all-xhr`
comparator (browser-connector.ts line 288) for the numeric timestamps of
the data model (non-numeric timestamps are not modelled). -/
def tsOf (log : JsObj) : Int :=
  match lookupField log "timestamp" with
  | some (.jnum n) => n
  | _ => 0

/-- The ordering used by the `all-xhr` sort: ascending timestamp. -/
def tsLe (a b : JsObj) : Prop := tsOf a ≤ tsOf b

instance : DecidableRel tsLe := fun a b => inferInstanceAs (Decidable (tsOf a ≤ tsOf b))

instance : IsTotal JsObj tsLe := ⟨fun a b => Int.le_total (tsOf a) (tsOf b)⟩

instance : IsTrans JsObj tsLe := ⟨fun _ _ _ h h' => le_trans h h'⟩

/-- The merge-and-sort step of `app.get("/all-xhr")` (browser-connector.ts
lines 287-289): `[...networkSuccess, ...networkErrors].sort` with the
numeric timestamp comparator.  `Array.prototype.sort` is stable (ES2019),
so it is modelled by a stable sort producing a timestamp-ordered
permutation. -/
def allXhrMerged (st : ServerState) : List JsObj :=
  List.insertionSort tsLe (st.networkSuccess ++ st.networkErrors)

/-- The full `app.get("/all-xhr")` response body (lines 285-292): the
merged, sorted view pushed through `truncateLogsToQueryLimit`. -/
def allXhrQuery (st : ServerState) : List JsObj :=
  truncateLogsToQueryLimit st.settings (allXhrMerged st)

/-- The `app.get("/network-errors")` response body (lines 275-278). -/
def networkErrorsQuery (st : ServerState) : List JsObj :=
  truncateLogsToQueryLimit st.settings st.networkErrors

/-- The `app.get("/network-success")` response body (lines 280-283). -/
def networkSuccessQuery (st : ServerState) : List JsObj :=
  truncateLogsToQueryLimit st.settings st.networkSuccess

/-- A sample network-request entry with numeric status 404. -/
def e404 : JsObj :=
  [("type", .jstr "network-request".toList), ("status", .jnum 404), ("timestamp", .jnum 1)]

/-- A sample network-request entry whose status is the *string* `"500"`. -/
def eStr500 : JsObj :=
  [("type", .jstr "network-request".toList), ("status", .jstr "500".toList)]

/-- A sample network-request entry with no status field. -/
def eNoStatus : JsObj := [("type", .jstr "network-request".toList)]

/-- A sample network-request entry carrying only a timestamp. -/
def eTs5 : JsObj := [("type", .jstr "network-request".toList), ("timestamp", .jnum 5)]

/-- A server state with one stored network success and a zero byte
budget for queries. -/
def tightState : ServerState :=
  { serverInit with
    networkSuccess := [eTs5]
    settings := { defaultSettings with queryLimit := 0 } }

/-! ## Object-identity model of the query path

JS distinguishes the stored log objects from the copies the query path
works on: `processLogsWithSettings` builds `{ ...log }` (a fresh object)
and `delete` mutates only that fresh object.  To state that queries never
mutate the store, objects live in an arena `Heap` (a list of objects,
identity = index): a buffer is a list of indices, `{ ...log }` appends a
fresh object at the end of the arena, and `delete` is `List.set` at the
object's index. -/

/-- An arena of JS objects; an object's identity is its index. -/
abbrev Heap := List JsObj

/-- Allocation of `{ ...log }`: a fresh object with the same fields,
at a fresh index. -/
def allocCopy (h : Heap) (o : JsObj) : Heap × Nat := (h ++ [o], h.length)

/-- The `logs.map((log) => ...)` body of `processLogsWithSettings` at the
object level: copy the stored object, then `delete` the hidden header
fields on the copy (in place).  Returns the updated arena and the index
of the copy. -/
def processLogHeap (s : Settings) (h : Heap) (i : Nat) : Heap × Nat :=
  let log := (h[i]?).getD []
  let (h1, j) := allocCopy h log
  if isNetworkRequest log then
    let h2 := if s.showRequestHeaders then h1
      else h1.set j (eraseField ((h1[j]?).getD []) "requestHeaders")
    let h3 := if s.showResponseHeaders then h2
      else h2.set j (eraseField ((h2[j]?).getD []) "responseHeaders")
    (h3, j)
  else (h1, j)

/-- Model of `processLogsWithSettings` at the object level: process each stored
index in order, collecting the copies' indices. -/
def processLogsHeap (s : Settings) (h : Heap) (ids : List Nat) : Heap × List Nat :=
  match ids with
  | [] => (h, [])
  | i :: rest =>
    let (h1, j) := processLogHeap s h i
    let (h2, js) := processLogsHeap s h1 rest
    (h2, j :: js)

/-- Model of `truncateLogsToQueryLimit` at the object level: process the stored
objects into fresh copies, then read (without writing) the copies under
the byte budget.  Returns the arena after the query and the response. -/
def queryHeap (s : Settings) (h : Heap) (ids : List Nat) : Heap × List JsObj :=
  let (h1, js) := processLogsHeap s h ids
  (h1, takeLogsWithinLimit s.queryLimit 0 (js.map (fun j => (h1[j]?).getD [])))

/-! ## The screenshot correlator

`captureScreenshot` (browser-connector.ts lines 566-669) registers a
`resolve`/`reject` pair in the module-level `screenshotCallbacks` map
keyed by a request id, sends `take-screenshot`, and schedules a 10000 ms
timeout that rejects and deletes the entry if it is still registered.
The WebSocket message handler (lines 392-420) settles `callbacks[0]` (the
first-inserted pending entry, since a JS `Map` iterates in insertion
order) and then *clears the whole map*.  The model keeps the pending ids
in insertion order and a log of settlements. -/

/-- How a pending caller's promise was settled. -/
inductive Outcome where
  | resolved : Outcome
  | rejected : String → Outcome
deriving Repr, DecidableEq

/-- The rejection message of the 10-second timeout (lines 603-607). -/
def timeoutMsg : String :=
  "Screenshot capture timed out - no response from Chrome extension"

/-- The correlator's state: the pending request ids of
`screenshotCallbacks` in insertion order, plus the log of settled
requests (a promise is settled at most once; each settlement is recorded
when its `resolve`/`reject` runs). -/
structure CorrState where
  pending : List Nat
  settled : List (Nat × Outcome)
deriving Repr, DecidableEq

/-- The correlator's state at process start: no pending callbacks. -/
def corrInit : CorrState where
  pending := []
  settled := []

/-- Model of `screenshotCallbacks.set(requestId, ...)` (line 590): a JS `Map.set`
keeps the position of an existing key and appends a new one. -/
def registerCallback (st : CorrState) (rid : Nat) : CorrState :=
  if rid ∈ st.pending then st else { st with pending := st.pending ++ [rid] }

/-- The asynchronous events the correlator reacts to. -/
inductive CorrEvent where
  /-- Event: `captureScreenshot` ran with an active connection: the callback is
  registered (lines 580-610) and `take-screenshot` is sent. -/
  | request : Nat → CorrEvent
  /-- A WebSocket `screenshot-data` message with a `data` payload arrived
  (lines 392-406). -/
  | dataMsg : CorrEvent
  /-- A WebSocket `screenshot-error` message arrived (lines 408-417);
  carries the optional `error` string. -/
  | errorMsg : Option String → CorrEvent
  /-- The 10000 ms timeout scheduled for the given request id fired
  (lines 597-609). -/
  | timeout : Nat → CorrEvent
deriving Repr, DecidableEq

/-- One step of the correlator (the message handler of lines 382-424 and
the timeout closure of lines 597-609).  On an inbound response the code
settles the *first* pending callback and then clears the whole map
(`screenshotCallbacks.clear()`); the timeout settles and deletes exactly
its own id, and does nothing when the id is no longer registered. -/
def stepEvent (st : CorrState) : CorrEvent → CorrState
  | .request rid => registerCallback st rid
  | .dataMsg =>
    match st.pending with
    | [] => st
    | r0 :: _ => { pending := [], settled := st.settled ++ [(r0, .resolved)] }
  | .errorMsg err =>
    match st.pending with
    | [] => st
    | r0 :: _ =>
      { pending := [],
        settled := st.settled ++ [(r0, .rejected (err.getD "Screenshot capture failed"))] }
  | .timeout rid =>
    if rid ∈ st.pending then
      { pending := st.pending.erase rid, settled := st.settled ++ [(rid, .rejected timeoutMsg)] }
    else st

/-- Running the correlator over a sequence of events. -/
def runEvents (st : CorrState) (evs : List CorrEvent) : CorrState :=
  evs.foldl stepEvent st

/-- The ids of the capture requests issued in an event sequence. -/
def requestedIds : List CorrEvent → List Nat
  | [] => []
  | .request rid :: es => rid :: requestedIds es
  | _ :: es => requestedIds es

/-- The ids whose promise was settled (resolved or rejected). -/
def settledIds (st : CorrState) : List Nat := st.settled.map Prod.fst

/-- Single-flight discipline (spec section 9: at most one capture in
flight at a time): a `request` event is admissible only when no callback
is pending. -/
def singleFlightRun (st : CorrState) : List CorrEvent → Bool
  | [] => true
  | e :: es =>
    match e with
    | .request _ => st.pending.isEmpty && singleFlightRun (stepEvent st e) es
    | _ => singleFlightRun (stepEvent st e) es

/-- The HTTP response produced by `captureScreenshot`'s early paths. -/
inductive CaptureResponse where
  /-- The response `res.status(code).json(...)` with an error message. -/
  | httpError : Nat → String → CaptureResponse
  /-- The capture command was issued and the caller now awaits the
  correlated response. -/
  | started : CaptureResponse
deriving Repr, DecidableEq

/-- A `take-screenshot` command sent over the WebSocket (lines 614-617). -/
structure WsCommand where
  type : String
  requestId : Nat
deriving Repr, DecidableEq

/-- Everything the synchronous part of `captureScreenshot` does. -/
structure CaptureResult where
  response : CaptureResponse
  state : CorrState
  sentCommands : List WsCommand
  /-- Scheduled timers: request id and delay in milliseconds. -/
  timers : List (Nat × Nat)
deriving Repr, DecidableEq

/-- The fixed correlation deadline (line 609): 10000 ms. -/
def screenshotTimeoutMs : Nat := 10000

/-- Model of the synchronous part of `captureScreenshot(req, res)`
(browser-connector.ts lines 566-622): with no active WebSocket connection
it immediately answers 503 `"Chrome extension not connected"`, touching
neither the callback map nor the channel; with a connection it registers
the callback, schedules the 10000 ms timeout and sends `take-screenshot`
with the request id. -/
def captureScreenshot (hasActiveConnection : Bool) (rid : Nat) (st : CorrState) :
    CaptureResult :=
  if !hasActiveConnection then
    { response := .httpError 503 "Chrome extension not connected",
      state := st, sentCommands := [], timers := [] }
  else
    { response := .started,
      state := registerCallback st rid,
      sentCommands := [{ type := "take-screenshot", requestId := rid }],
      timers := [(rid, screenshotTimeoutMs)] }

/-! ## Theorems -/

theorem truncMarker_length : truncMarker.length = 15 := by decide

/-- The string branch of the normalizer is idempotent: re-truncating a
just-truncated string re-derives exactly the same marker-suffixed value. -/
theorem truncateString_idem (L : Nat) (s : List Char) :
    truncateString L (truncateString L s) = truncateString L s := by
  by_cases h : L < s.length
  · have hfirst : truncateString L s = s.take L ++ truncMarker := by
      simp [truncateString, h]
    have htl : (s.take L).length = L := by
      simp [List.length_take, Nat.min_eq_left (Nat.le_of_lt h)]
    have hcond : L < (s.take L ++ truncMarker).length := by
      simp only [List.length_append, htl, truncMarker_length]
      omega
    rw [hfirst]
    simp only [truncateString, if_pos hcond]
    congr 1
    calc (s.take L ++ truncMarker).take L
        = (s.take L ++ truncMarker).take (s.take L).length := by rw [htl]
      _ = s.take L := List.take_left _ _
  · simp [truncateString, h]

/-- C4. Normalization of strings is idempotent on the bound: for any
string `s` and limit `L`, applying `truncateStringsInData` twice to the
string `s` gives the same result as applying it once (truncating an
already-truncated string is a no-op). -/
theorem normalize_string_idempotent (s : List Char) (L : Nat) :
    truncateStringsInData L (truncateStringsInData L (.jstr s)) =
      truncateStringsInData L (.jstr s) := by
  simp only [truncateStringsInData, truncateString_idem]

/-- The accumulator-generalized prefix property of the size-limited array
normalizer: from any running total, the output is an initial segment of
the processed array. -/
theorem processArrayWithSizeLimit_take (maxB : Nat) (f : Json → Json) :
    ∀ (arr : List Json) (acc : Nat),
      ∃ k, processArrayWithSizeLimit maxB f acc arr = (arr.map f).take k := by
  intro arr
  induction arr with
  | nil => exact fun acc => ⟨0, rfl⟩
  | cons x xs ih =>
    intro acc
    by_cases h : maxB < acc + calculateObjectSize (f x)
    · exact ⟨0, by simp [processArrayWithSizeLimit, h]⟩
    · obtain ⟨k, hk⟩ := ih (acc + calculateObjectSize (f x))
      exact ⟨k + 1, by simp [processArrayWithSizeLimit, h, hk]⟩

/-- C5. `processArrayWithSizeLimit(arr, maxBytes, f)` returns a prefix of
`map(f, arr)`: elements are processed in original order, never reordered,
no later element is included while an earlier one is skipped, and
elements past the cut are dropped whole. -/
theorem size_limited_array_prefix_of_map (arr : List Json) (maxBytes : Nat)
    (f : Json → Json) :
    ∃ k, processArrayWithSizeLimit maxBytes f 0 arr = (arr.map f).take k :=
  processArrayWithSizeLimit_take maxBytes f arr 0

/-- Dropping the head of a nonempty list commutes with appending and a
successor drop. -/
theorem drop_succ_append_tail (l es : List α) (k : Nat) (h : l ≠ []) :
    (l ++ es).drop (k + 1) = (l.tail ++ es).drop k := by
  cases l with
  | nil => exact absurd rfl h
  | cons a t => simp [List.drop_succ_cons]

/-- Folding `boundedAppend` keeps exactly the most recent `limit` entries:
from any start buffer within the bound, the final buffer is the suffix of
the concatenated history that fits. -/
theorem foldl_boundedAppend (limit : Nat) :
    ∀ (entries buf : List α), buf.length ≤ limit →
      entries.foldl (boundedAppend limit) buf =
        (buf ++ entries).drop (buf.length + entries.length - limit) := by
  intro entries
  induction entries with
  | nil =>
    intro buf hbuf
    simp [Nat.sub_eq_zero_of_le hbuf]
  | cons e es ih =>
    intro buf hbuf
    rw [List.foldl_cons]
    have hblen : (buf ++ [e]).length = buf.length + 1 := by simp
    by_cases h : limit < (buf ++ [e]).length
    · have hlen : buf.length = limit := by omega
      have hstep : boundedAppend limit buf e = (buf ++ [e]).tail := if_pos h
      have htail_len : ((buf ++ [e]).tail).length = limit := by
        simp [List.length_tail, hlen]
      rw [hstep, ih _ (le_of_eq htail_len), htail_len]
      have hne : (buf ++ [e]) ≠ [] := by simp
      have harith1 : limit + es.length - limit = es.length := by omega
      have harith2 : buf.length + (e :: es).length - limit = es.length + 1 := by
        simp only [List.length_cons]; omega
      rw [harith1, harith2]
      have hcat : buf ++ e :: es = (buf ++ [e]) ++ es := by simp
      rw [hcat, drop_succ_append_tail _ _ _ hne]
    · have hstep : boundedAppend limit buf e = buf ++ [e] := if_neg h
      have hlen : (buf ++ [e]).length ≤ limit := Nat.le_of_not_lt h
      rw [hstep, ih _ hlen]
      have hcat : (buf ++ [e]) ++ es = buf ++ e :: es := by simp
      rw [hcat]
      congr 1
      simp only [List.length_cons, hblen]
      omega

/-- C2. Bounded buffer: after any sequence of ingest appends into an
initially empty buffer the size is at most `logLimit`, and the buffer
holds exactly the most recent `logLimit` appended entries in their
original relative order (for `logLimit + k` appends, the last `logLimit`
of them: `entries.drop k`). -/
theorem buffer_bound_and_window (limit : Nat) (entries : List α) :
    (ingestAll limit entries).length ≤ limit ∧
      ingestAll limit entries = entries.drop (entries.length - limit) := by
  have h := foldl_boundedAppend limit entries ([] : List α) (by simp)
  simp only [List.nil_append, List.length_nil, Nat.zero_add] at h
  refine ⟨?_, h⟩
  rw [ingestAll, h]
  simp only [List.length_drop]
  omega

/-- The query loop keeps the running total within the remaining budget:
the per-entry sizes of what it returns sum to at most `limit - acc`. -/
theorem takeLogsWithinLimit_sum_le (L : Nat) :
    ∀ (logs : List JsObj) (acc : Nat),
      sumLogSizes (takeLogsWithinLimit L acc logs) ≤ L - acc := by
  intro logs
  induction logs with
  | nil => intro acc; simp [takeLogsWithinLimit, sumLogSizes]
  | cons log rest ih =>
    intro acc
    by_cases h : L < acc + calculateLogSize log
    · simp [takeLogsWithinLimit, h, sumLogSizes]
    · have hrec := ih (acc + calculateLogSize log)
      simp only [takeLogsWithinLimit, if_neg h]
      simp only [sumLogSizes, List.map_cons, List.sum_cons] at hrec ⊢
      omega

/-- A lower byte budget never admits more entries than a higher one. -/
theorem takeLogsWithinLimit_mono (L1 L2 : Nat) (h : L1 ≤ L2) :
    ∀ (logs : List JsObj) (acc : Nat),
      (takeLogsWithinLimit L1 acc logs).length ≤ (takeLogsWithinLimit L2 acc logs).length := by
  intro logs
  induction logs with
  | nil => intro acc; simp [takeLogsWithinLimit]
  | cons log rest ih =>
    intro acc
    by_cases h1 : L1 < acc + calculateLogSize log
    · simp [takeLogsWithinLimit, h1]
    · have h2 : ¬ L2 < acc + calculateLogSize log := by omega
      simp only [takeLogsWithinLimit, if_neg h1, if_neg h2, List.length_cons]
      exact Nat.succ_le_succ (ih (acc + calculateLogSize log))

/-- The query loop returns an initial segment of the processed entries. -/
theorem takeLogsWithinLimit_take (L : Nat) :
    ∀ (logs : List JsObj) (acc : Nat),
      ∃ k, takeLogsWithinLimit L acc logs = logs.take k := by
  intro logs
  induction logs with
  | nil => exact fun acc => ⟨0, rfl⟩
  | cons log rest ih =>
    intro acc
    by_cases h : L < acc + calculateLogSize log
    · exact ⟨0, by simp [takeLogsWithinLimit, h]⟩
    · obtain ⟨k, hk⟩ := ih (acc + calculateLogSize log)
      exact ⟨k + 1, by simp [takeLogsWithinLimit, h, hk]⟩

/-- If every entry fits, the query loop returns the whole buffer. -/
theorem takeLogsWithinLimit_all (L : Nat) :
    ∀ (logs : List JsObj) (acc : Nat),
      sumLogSizes logs + acc ≤ L → takeLogsWithinLimit L acc logs = logs := by
  intro logs
  induction logs with
  | nil => intro acc _; rfl
  | cons log rest ih =>
    intro acc hsum
    simp only [sumLogSizes, List.map_cons, List.sum_cons] at hsum
    have h : ¬ L < acc + calculateLogSize log := by omega
    simp only [takeLogsWithinLimit, if_neg h]
    rw [ih (acc + calculateLogSize log) (by simp only [sumLogSizes] at *; omega)]

/-- C3 counterexample: the literal reading fails.  With `queryLimit = 0`
and a buffer holding one empty-object entry, the query returns the empty
array, whose serialized form `"[]"` still has 2 bytes `> 0 = queryLimit`
(the JSON array brackets and separators are not part of the accumulated
budget). -/
theorem query_byte_budget_counterexample :
    ({ defaultSettings with queryLimit := 0 } : Settings).queryLimit <
      (serialize (.jarr ((truncateLogsToQueryLimit
        { defaultSettings with queryLimit := 0 } [[]]).map Json.jobj))).length := by
  decide

/-- C3 (amended). The *sum of the per-entry serialized byte lengths* of
the entries returned by `truncateLogsToQueryLimit` is at most
`queryLimit` (the enclosing array's brackets/commas are not counted);
decreasing `queryLimit` never increases the number of entries returned
for the same buffer contents; the entries returned are an oldest-first
initial segment of the processed buffer — truncation drops only the
newest excess entries. -/
theorem query_byte_budget (s : Settings) (logs : List JsObj) (L1 : Nat)
    (hle : L1 ≤ s.queryLimit) :
    sumLogSizes (truncateLogsToQueryLimit s logs) ≤ s.queryLimit ∧
      (truncateLogsToQueryLimit { s with queryLimit := L1 } logs).length ≤
        (truncateLogsToQueryLimit s logs).length ∧
      ∃ k, truncateLogsToQueryLimit s logs = (processLogsWithSettings s logs).take k := by
  by_cases hnil : logs.length = 0
  · have hlogs : logs = [] := List.length_eq_zero.mp hnil
    subst hlogs
    exact ⟨by simp [truncateLogsToQueryLimit, sumLogSizes],
      by simp [truncateLogsToQueryLimit],
      ⟨0, by simp [truncateLogsToQueryLimit, processLogsWithSettings]⟩⟩
  · have hsame : processLogsWithSettings { s with queryLimit := L1 } logs =
        processLogsWithSettings s logs := rfl
    refine ⟨?_, ?_, ?_⟩
    · have h := takeLogsWithinLimit_sum_le s.queryLimit
        (processLogsWithSettings s logs) 0
      simp only [truncateLogsToQueryLimit, if_neg hnil]
      omega
    · simp only [truncateLogsToQueryLimit, if_neg hnil, hsame]
      exact takeLogsWithinLimit_mono L1 s.queryLimit hle _ 0
    · simp only [truncateLogsToQueryLimit, if_neg hnil]
      exact takeLogsWithinLimit_take s.queryLimit _ 0

/-- Witness for `query_byte_budget` at a concrete buffer and budgets. -/
theorem query_byte_budget_witness :
    sumLogSizes (truncateLogsToQueryLimit defaultSettings [[]]) ≤
        defaultSettings.queryLimit ∧
      (truncateLogsToQueryLimit { defaultSettings with queryLimit := 0 } [[]]).length ≤
        (truncateLogsToQueryLimit defaultSettings [[]]).length ∧
      ∃ k, truncateLogsToQueryLimit defaultSettings [[]] =
        (processLogsWithSettings defaultSettings [[]]).take k :=
  query_byte_budget defaultSettings [[]] 0 (Nat.zero_le _)

/-- After `delete log.key`, reading `log.key` yields `undefined`. -/
theorem lookupField_eraseField_self (log : JsObj) (key : String) :
    lookupField (eraseField log key) key = none := by
  induction log with
  | nil => rfl
  | cons kv rest ih =>
    obtain ⟨k, v⟩ := kv
    by_cases h : k = key
    · simp [eraseField, h, ih]
    · simp [eraseField, lookupField, h, ih]

/-- The statement `delete log.key` leaves every other property unchanged. -/
theorem lookupField_eraseField_ne (log : JsObj) (key key' : String) (h : key' ≠ key) :
    lookupField (eraseField log key) key' = lookupField log key' := by
  induction log with
  | nil => rfl
  | cons kv rest ih =>
    obtain ⟨k, v⟩ := kv
    by_cases hk : k = key
    · subst hk
      simp [eraseField, lookupField, Ne.symm h, ih]
    · by_cases hk' : k = key'
      · simp [eraseField, lookupField, hk, hk', h]
      · simp [eraseField, lookupField, hk, hk', ih]

/-- Header stripping does not change an entry's `type` tag. -/
theorem isTypeTag_processLog (s : Settings) (log : JsObj) (tag : String) :
    isTypeTag (processLog s log) tag = isTypeTag log tag := by
  by_cases hn : isNetworkRequest log
  · have hty : ∀ p : JsObj, lookupField p "type" = lookupField log "type" →
        isTypeTag p tag = isTypeTag log tag := by
      intro p hp; simp [isTypeTag, hp]
    simp only [processLog, if_pos hn]
    by_cases h1 : s.showRequestHeaders <;> by_cases h2 : s.showResponseHeaders <;>
      simp only [h1, h2, if_pos, if_neg, Bool.false_eq_true, ite_true, ite_false] <;>
      apply hty <;>
      simp [lookupField_eraseField_ne _ _ _ (by decide : "type" ≠ "requestHeaders"),
        lookupField_eraseField_ne _ _ _ (by decide : "type" ≠ "responseHeaders")]
  · simp [processLog, hn]

/-- With `showRequestHeaders = false`, the processed form of a
network-request entry has no `requestHeaders` property. -/
theorem processLog_strips_requestHeaders (s : Settings) (log : JsObj)
    (hflag : s.showRequestHeaders = false) (hnet : isNetworkRequest log = true) :
    lookupField (processLog s log) "requestHeaders" = none := by
  simp only [processLog, if_pos hnet, hflag, Bool.false_eq_true, ite_false]
  by_cases h2 : s.showResponseHeaders
  · simp [h2, lookupField_eraseField_self]
  · simp [h2,
      lookupField_eraseField_ne _ _ _ (by decide : "requestHeaders" ≠ "responseHeaders"),
      lookupField_eraseField_self]

/-- With `showResponseHeaders = false`, the processed form of a
network-request entry has no `responseHeaders` property. -/
theorem processLog_strips_responseHeaders (s : Settings) (log : JsObj)
    (hflag : s.showResponseHeaders = false) (hnet : isNetworkRequest log = true) :
    lookupField (processLog s log) "responseHeaders" = none := by
  simp only [processLog, if_pos hnet, hflag, Bool.false_eq_true, ite_false]
  by_cases h1 : s.showRequestHeaders <;>
    simp [h1, lookupField_eraseField_self]

/-- Every entry a query returns is the processed form of a stored entry. -/
theorem mem_truncateLogsToQueryLimit (s : Settings) (logs : List JsObj) (l : JsObj)
    (hl : l ∈ truncateLogsToQueryLimit s logs) :
    ∃ log ∈ logs, processLog s log = l := by
  by_cases hnil : logs.length = 0
  · rw [truncateLogsToQueryLimit, if_pos hnil] at hl
    rw [List.length_eq_zero.mp hnil] at hl
    exact absurd hl (List.not_mem_nil l)
  · rw [truncateLogsToQueryLimit, if_neg hnil] at hl
    obtain ⟨k, hk⟩ := takeLogsWithinLimit_take s.queryLimit (processLogsWithSettings s logs) 0
    rw [hk] at hl
    exact List.exists_of_mem_map (List.mem_of_mem_take hl)

/-- C7. Header visibility is applied at read time: whatever the buffer
holds — including network-request entries stored with their headers while
the `show*Headers` settings were `true` — a query run after the settings
were flipped to `false` omits the `requestHeaders` and `responseHeaders`
properties of every network-request entry it returns. -/
theorem header_visibility_read_time (s : Settings) (logs : List JsObj)
    (hreq : s.showRequestHeaders = false) (hresp : s.showResponseHeaders = false) :
    ∀ l ∈ truncateLogsToQueryLimit s logs, isNetworkRequest l = true →
      lookupField l "requestHeaders" = none ∧ lookupField l "responseHeaders" = none := by
  intro l hl hnet
  obtain ⟨log, hmem, hproc⟩ := mem_truncateLogsToQueryLimit s logs l hl
  have hnet0 : isNetworkRequest log = true := by
    have := isTypeTag_processLog s log "network-request"
    rw [hproc] at this
    rw [isNetworkRequest] at hnet ⊢
    rw [← this, hnet]
  subst hproc
  exact ⟨processLog_strips_requestHeaders s log hreq hnet0,
    processLog_strips_responseHeaders s log hresp hnet0⟩

/-- Witness for `header_visibility_read_time`: a network-request entry
stored with both header fields is returned without them once both
visibility flags are off (the defaults). -/
theorem header_visibility_read_time_witness :
    lookupField (processLog defaultSettings
        [("type", .jstr "network-request".toList),
         ("requestHeaders", .jobj []), ("responseHeaders", .jobj [])])
      "requestHeaders" = none ∧
    lookupField (processLog defaultSettings
        [("type", .jstr "network-request".toList),
         ("requestHeaders", .jobj []), ("responseHeaders", .jobj [])])
      "responseHeaders" = none :=
  header_visibility_read_time defaultSettings
    [[("type", .jstr "network-request".toList),
      ("requestHeaders", .jobj []), ("responseHeaders", .jobj [])]]
    rfl rfl
    (processLog defaultSettings
      [("type", .jstr "network-request".toList),
       ("requestHeaders", .jobj []), ("responseHeaders", .jobj [])])
    (by decide) (by decide)

/-- Processing one stored log only allocates and mutates past the end of
the arena: every previously allocated object is untouched, and the arena
only grows. -/
theorem processLogHeap_preserves (s : Settings) (h : Heap) (i : Nat) :
    h.length ≤ (processLogHeap s h i).1.length ∧
      ∀ k, k < h.length → (processLogHeap s h i).1[k]? = h[k]? := by
  have happ : ∀ k, k < h.length → (h ++ [(h[i]?).getD []])[k]? = h[k]? :=
    fun k hk => List.getElem?_append_left hk
  have happlen : (h ++ [(h[i]?).getD []]).length = h.length + 1 := by simp
  have hset : ∀ (h' : Heap) (o : JsObj), h'.length = h.length + 1 →
      (∀ k, k < h.length → h'[k]? = h[k]?) →
      (h'.set h.length o).length = h.length + 1 ∧
        ∀ k, k < h.length → (h'.set h.length o)[k]? = h[k]? := by
    intro h' o hlen hget
    refine ⟨by simp [hlen], fun k hk => ?_⟩
    rw [List.getElem?_set_ne (by omega), hget k hk]
  simp only [processLogHeap, allocCopy]
  by_cases hn : isNetworkRequest ((h[i]?).getD [])
  · simp only [if_pos hn]
    by_cases h1 : s.showRequestHeaders <;> by_cases h2 : s.showResponseHeaders <;>
      simp only [h1, h2, ite_true, ite_false, Bool.false_eq_true]
    · exact ⟨by simp, happ⟩
    · obtain ⟨hl, hg⟩ := hset _ _ happlen happ
      exact ⟨by omega, hg⟩
    · obtain ⟨hl, hg⟩ := hset _ _ happlen happ
      exact ⟨by omega, hg⟩
    · obtain ⟨hl1, hg1⟩ := hset _ _ happlen happ
      obtain ⟨hl2, hg2⟩ := hset _ _ hl1 hg1
      exact ⟨by omega, hg2⟩
  · simp only [if_neg hn]
    exact ⟨by simp, happ⟩

/-- Processing a whole buffer of stored logs leaves every previously
allocated object untouched. -/
theorem processLogsHeap_preserves (s : Settings) :
    ∀ (ids : List Nat) (h : Heap),
      h.length ≤ (processLogsHeap s h ids).1.length ∧
        ∀ k, k < h.length → (processLogsHeap s h ids).1[k]? = h[k]? := by
  intro ids
  induction ids with
  | nil => exact fun h => ⟨le_refl _, fun k _ => rfl⟩
  | cons i rest ih =>
    intro h
    obtain ⟨hlen1, hget1⟩ := processLogHeap_preserves s h i
    obtain ⟨hlen2, hget2⟩ := ih (processLogHeap s h i).1
    constructor
    · exact le_trans hlen1 hlen2
    · intro k hk
      show (processLogsHeap s h (i :: rest)).1[k]? = h[k]?
      simp only [processLogsHeap]
      rw [show (processLogHeap s h i) = ((processLogHeap s h i).1, (processLogHeap s h i).2)
        from rfl]
      rw [show (processLogsHeap s (processLogHeap s h i).1 rest) =
        ((processLogsHeap s (processLogHeap s h i).1 rest).1,
         (processLogsHeap s (processLogHeap s h i).1 rest).2) from rfl]
      exact (hget2 k (lt_of_lt_of_le hk hlen1)).trans (hget1 k hk)

/-- C10. Queries never mutate the stored buffers: header stripping and
size truncation operate on fresh copies, so after any query every object
allocated before the query — in particular every stored log entry — is
unchanged, and a stored network-request entry still carries its
`requestHeaders` and `responseHeaders` fields even when the query ran
with both visibility flags off. -/
theorem query_leaves_store_unchanged (s : Settings) (h : Heap) (ids : List Nat)
    (k : Nat) (hk : k < h.length) :
    (queryHeap s h ids).1[k]? = h[k]? ∧
      lookupField (((queryHeap s h ids).1[k]?).getD []) "requestHeaders" =
        lookupField ((h[k]?).getD []) "requestHeaders" ∧
      lookupField (((queryHeap s h ids).1[k]?).getD []) "responseHeaders" =
        lookupField ((h[k]?).getD []) "responseHeaders" := by
  have hq : (queryHeap s h ids).1 = (processLogsHeap s h ids).1 := by
    simp only [queryHeap]
  obtain ⟨_, hget⟩ := processLogsHeap_preserves s ids h
  rw [hq, hget k hk]
  exact ⟨rfl, rfl, rfl⟩

/-- Witness for `query_leaves_store_unchanged`: one stored network-request
entry with both header fields, queried under the default (hiding)
settings, is still intact in the store afterwards. -/
theorem query_leaves_store_unchanged_witness :
    (queryHeap defaultSettings
        [[("type", .jstr "network-request".toList),
          ("requestHeaders", .jobj []), ("responseHeaders", .jobj [])]] [0]).1[0]? =
      some [("type", .jstr "network-request".toList),
        ("requestHeaders", .jobj []), ("responseHeaders", .jobj [])] ∧
      lookupField (((queryHeap defaultSettings
          [[("type", .jstr "network-request".toList),
            ("requestHeaders", .jobj []), ("responseHeaders", .jobj [])]] [0]).1[0]?).getD [])
          "requestHeaders" =
        lookupField [("type", Json.jstr "network-request".toList),
          ("requestHeaders", Json.jobj []), ("responseHeaders", Json.jobj [])]
          "requestHeaders" ∧
      lookupField (((queryHeap defaultSettings
          [[("type", .jstr "network-request".toList),
            ("requestHeaders", .jobj []), ("responseHeaders", .jobj [])]] [0]).1[0]?).getD [])
          "responseHeaders" =
        lookupField [("type", Json.jstr "network-request".toList),
          ("requestHeaders", Json.jobj []), ("responseHeaders", Json.jobj [])]
          "responseHeaders" :=
  query_leaves_store_unchanged defaultSettings
    [[("type", .jstr "network-request".toList),
      ("requestHeaders", .jobj []), ("responseHeaders", .jobj [])]] [0] 0
    (by decide)

/-- Conservation of settlements under the single-flight discipline: with
at most one callback pending, every step preserves
`requests still to come + currently pending + already settled
  = finally pending + finally settled`, counted per request id. -/
theorem sf_count_balance :
    ∀ (evs : List CorrEvent) (st : CorrState),
      singleFlightRun st evs = true → st.pending.length ≤ 1 → ∀ rid : Nat,
      (requestedIds evs).count rid + st.pending.count rid + (settledIds st).count rid
        = (runEvents st evs).pending.count rid
            + (settledIds (runEvents st evs)).count rid := by
  intro evs
  induction evs with
  | nil => intro st _ _ rid; simp [requestedIds, runEvents]
  | cons e es ih =>
    intro st hsf hlen rid
    have hrun : runEvents st (e :: es) = runEvents (stepEvent st e) es := rfl
    cases e with
    | request r =>
      simp only [singleFlightRun, Bool.and_eq_true] at hsf
      obtain ⟨hemp, hsf'⟩ := hsf
      have hp : st.pending = [] := List.isEmpty_iff.mp hemp
      have hstep : stepEvent st (.request r) = { st with pending := [r] } := by
        simp [stepEvent, registerCallback, hp]
      have hih := ih (stepEvent st (.request r)) hsf' (by simp [hstep]) rid
      rw [hstep] at hih
      rw [hrun, hstep]
      simp only [requestedIds, List.count_cons, List.count_nil, hp,
        settledIds] at hih ⊢
      omega
    | dataMsg =>
      have hsf' : singleFlightRun (stepEvent st .dataMsg) es = true := by
        simpa [singleFlightRun] using hsf
      cases hp : st.pending with
      | nil =>
        have hstep : stepEvent st .dataMsg = st := by simp [stepEvent, hp]
        rw [hrun, hstep]
        rw [hstep] at hsf'
        have hreq : requestedIds (CorrEvent.dataMsg :: es) = requestedIds es := rfl
        rw [hreq]
        have hih := ih st hsf' hlen rid
        rw [hp] at hih
        exact hih
      | cons r0 rest =>
        have hrest : rest = [] := by
          rw [hp] at hlen
          simpa using hlen
        subst hrest
        have hstep : stepEvent st .dataMsg =
            { pending := [], settled := st.settled ++ [(r0, .resolved)] } := by
          simp [stepEvent, hp]
        have hih := ih (stepEvent st .dataMsg) hsf' (by simp [hstep]) rid
        rw [hstep] at hih
        rw [hrun, hstep]
        simp only [requestedIds, settledIds, List.map_append, List.count_append,
          List.count_cons, List.count_nil, List.map_cons, List.map_nil, hp] at hih ⊢
        omega
    | errorMsg err =>
      have hsf' : singleFlightRun (stepEvent st (.errorMsg err)) es = true := by
        simpa [singleFlightRun] using hsf
      cases hp : st.pending with
      | nil =>
        have hstep : stepEvent st (.errorMsg err) = st := by simp [stepEvent, hp]
        rw [hrun, hstep]
        rw [hstep] at hsf'
        have hreq : requestedIds (CorrEvent.errorMsg err :: es) = requestedIds es := rfl
        rw [hreq]
        have hih := ih st hsf' hlen rid
        rw [hp] at hih
        exact hih
      | cons r0 rest =>
        have hrest : rest = [] := by
          rw [hp] at hlen
          simpa using hlen
        subst hrest
        have hstep : stepEvent st (.errorMsg err) =
            { pending := [],
              settled := st.settled ++ [(r0, .rejected (err.getD "Screenshot capture failed"))] } := by
          simp [stepEvent, hp]
        have hih := ih (stepEvent st (.errorMsg err)) hsf' (by simp [hstep]) rid
        rw [hstep] at hih
        rw [hrun, hstep]
        simp only [requestedIds, settledIds, List.map_append, List.count_append,
          List.count_cons, List.count_nil, List.map_cons, List.map_nil, hp] at hih ⊢
        omega
    | timeout r =>
      have hsf' : singleFlightRun (stepEvent st (.timeout r)) es = true := by
        simpa [singleFlightRun] using hsf
      by_cases hmem : r ∈ st.pending
      · have hp : st.pending = [r] := by
          cases hp0 : st.pending with
          | nil => rw [hp0] at hmem; exact absurd hmem (List.not_mem_nil r)
          | cons x rest =>
            have hrest : rest = [] := by
              rw [hp0] at hlen
              simpa using hlen
            subst hrest
            rw [hp0] at hmem
            have : r = x := by simpa using hmem
            rw [this]
        have hstep : stepEvent st (.timeout r) =
            { pending := [], settled := st.settled ++ [(r, .rejected timeoutMsg)] } := by
          simp [stepEvent, hp, List.erase_cons]
        have hih := ih (stepEvent st (.timeout r)) hsf' (by simp [hstep]) rid
        rw [hstep] at hih
        rw [hrun, hstep]
        simp only [requestedIds, settledIds, List.map_append, List.count_append,
          List.count_cons, List.count_nil, List.map_cons, List.map_nil, hp] at hih ⊢
        omega
      · have hstep : stepEvent st (.timeout r) = st := by simp [stepEvent, hmem]
        rw [hrun, hstep]
        rw [hstep] at hsf'
        have hreq : requestedIds (CorrEvent.timeout r :: es) = requestedIds es := rfl
        rw [hreq]
        exact ih st hsf' hlen rid

/-- C1 counterexample: with two captures pending concurrently, one
inbound success response resolves the first caller but *clears the whole
callback map*, so the second caller's pending record is removed without
being settled, its later timeout finds nothing to reject, and after all
responses and timeouts have fired request 2 is left neither resolved nor
rejected. -/
theorem correlator_leak_counterexample :
    2 ∈ requestedIds
        [CorrEvent.request 1, CorrEvent.request 2, CorrEvent.dataMsg,
         CorrEvent.timeout 1, CorrEvent.timeout 2] ∧
      (runEvents corrInit
        [CorrEvent.request 1, CorrEvent.request 2, CorrEvent.dataMsg,
         CorrEvent.timeout 1, CorrEvent.timeout 2]).pending = [] ∧
      2 ∉ settledIds (runEvents corrInit
        [CorrEvent.request 1, CorrEvent.request 2, CorrEvent.dataMsg,
         CorrEvent.timeout 1, CorrEvent.timeout 2]) := by
  decide

/-- C1 (amended). Under the single-flight discipline (a capture request
is only issued while no callback is pending — the invariant the source
relies on), once every response and timeout has fired and no record is
pending, each issued request has been settled (resolved or rejected)
exactly as many times as it was issued: every response settles exactly
the one pending caller and removes its record, no continuation is leaked
and none is double-settled. -/
theorem correlator_single_flight_settles (evs : List CorrEvent) (rid : Nat)
    (hsf : singleFlightRun corrInit evs = true)
    (hdone : (runEvents corrInit evs).pending = []) :
    (settledIds (runEvents corrInit evs)).count rid = (requestedIds evs).count rid := by
  have h := sf_count_balance evs corrInit hsf (by simp [corrInit]) rid
  rw [hdone] at h
  simp only [corrInit, settledIds, List.map_nil, List.count_nil, Nat.add_zero,
    Nat.zero_add] at h ⊢
  omega

/-- Witness for `correlator_single_flight_settles`: one request, one
response. -/
theorem correlator_single_flight_settles_witness :
    (settledIds (runEvents corrInit [CorrEvent.request 1, CorrEvent.dataMsg])).count 1
      = (requestedIds [CorrEvent.request 1, CorrEvent.dataMsg]).count 1 :=
  correlator_single_flight_settles [CorrEvent.request 1, CorrEvent.dataMsg] 1
    (by decide) (by decide)

/-- C6. The screenshot capture failure modes:
with no connected agent the capture fails immediately with the 503
no-active-connection error, registering nothing, sending nothing and
scheduling nothing; with a connected agent that never replies, the
capture schedules the fixed 10000 ms deadline and its timeout rejects the
caller with the timeout error and discards the pending record (the caller
is never left hanging); and a response arriving when nothing is pending
(e.g. after the timeout already fired) finds no pending record and is
dropped. -/
theorem capture_failure_modes :
    (∀ (st : CorrState) (rid : Nat),
        captureScreenshot false rid st =
          { response := .httpError 503 "Chrome extension not connected",
            state := st, sentCommands := [], timers := [] }) ∧
      (∀ (st : CorrState) (rid : Nat), rid ∉ st.pending →
        (captureScreenshot true rid st).timers = [(rid, screenshotTimeoutMs)] ∧
          stepEvent (captureScreenshot true rid st).state (.timeout rid) =
            { pending := st.pending,
              settled := st.settled ++ [(rid, .rejected timeoutMsg)] }) ∧
      (∀ st : CorrState, st.pending = [] →
        stepEvent st .dataMsg = st ∧ ∀ err, stepEvent st (.errorMsg err) = st) := by
  refine ⟨fun st rid => rfl, fun st rid hrid => ⟨rfl, ?_⟩, fun st hp => ?_⟩
  · have hstate : (captureScreenshot true rid st).state =
        { st with pending := st.pending ++ [rid] } := by
      simp [captureScreenshot, registerCallback, hrid]
    rw [hstate]
    have hmem : rid ∈ st.pending ++ [rid] := by simp
    simp only [stepEvent, if_pos hmem]
    rw [List.erase_append_right _ hrid]
    simp [List.erase_cons]
  · exact ⟨by simp [stepEvent, hp], fun err => by simp [stepEvent, hp]⟩

/-- Witness for `capture_failure_modes` at concrete states. -/
theorem capture_failure_modes_witness :
    captureScreenshot false 7 corrInit =
        { response := .httpError 503 "Chrome extension not connected",
          state := corrInit, sentCommands := [], timers := [] } ∧
      ((captureScreenshot true 7 corrInit).timers = [(7, screenshotTimeoutMs)] ∧
        stepEvent (captureScreenshot true 7 corrInit).state (.timeout 7) =
          { pending := corrInit.pending,
            settled := corrInit.settled ++ [(7, .rejected timeoutMsg)] }) ∧
      (stepEvent corrInit .dataMsg = corrInit ∧
        stepEvent corrInit (.errorMsg none) = corrInit) :=
  ⟨capture_failure_modes.1 corrInit 7,
    capture_failure_modes.2.1 corrInit 7 (by decide),
    (capture_failure_modes.2.2 corrInit rfl).1,
    (capture_failure_modes.2.2 corrInit rfl).2 none⟩

/-- An entry whose `type` tag is one string is not tagged with another. -/
theorem isTypeTag_ne (e : JsObj) (t1 t2 : String)
    (h : isTypeTag e t1 = true) (hne : t1.toList ≠ t2.toList) :
    isTypeTag e t2 = false := by
  unfold isTypeTag at h ⊢
  generalize hl : lookupField e "type" = v at h ⊢
  cases v with
  | none => exact absurd h (by simp)
  | some j =>
    cases j with
    | jstr s =>
      simp only [decide_eq_true_eq] at h
      subst h
      exact decide_eq_false hne
    | jnull => exact absurd h (by simp)
    | jbool b => exact absurd h (by simp)
    | jnum m => exact absurd h (by simp)
    | jarr a => exact absurd h (by simp)
    | jobj o => exact absurd h (by simp)

/-- With both visibility flags on, processing changes nothing. -/
theorem processLogsWithSettings_id (s : Settings) (h1 : s.showRequestHeaders = true)
    (h2 : s.showResponseHeaders = true) (logs : List JsObj) :
    processLogsWithSettings s logs = logs := by
  have hone : ∀ log, processLog s log = log := by
    intro log
    unfold processLog
    by_cases hn : isNetworkRequest log <;> simp [hn, h1, h2]
  induction logs with
  | nil => rfl
  | cons l rest ih =>
    simp only [processLogsWithSettings, List.map_cons, hone]
    simpa [processLogsWithSettings] using ih

/-- Every query response is an initial segment of the processed buffer. -/
theorem truncateLogsToQueryLimit_take (s : Settings) (logs : List JsObj) :
    ∃ k, truncateLogsToQueryLimit s logs = (processLogsWithSettings s logs).take k := by
  by_cases hnil : logs.length = 0
  · refine ⟨0, ?_⟩
    rw [truncateLogsToQueryLimit, if_pos hnil, List.length_eq_zero.mp hnil]
    rfl
  · rw [truncateLogsToQueryLimit, if_neg hnil]
    exact takeLogsWithinLimit_take s.queryLimit _ 0

/-- C8 counterexample to the literal all-xhr sentence: the all-xhr query
pushes the sorted union through the query byte budget, so with
`queryLimit = 0` a stored success entry is in the union of the two
network buffers but the query returns the empty array, not the union. -/
theorem allxhr_byte_budget_counterexample :
    tightState.networkSuccess ++ tightState.networkErrors = [eTs5] ∧
      allXhrQuery tightState = [] := by
  constructor
  · decide
  · rfl

/-- C8 (amended). Ingested network-request events with numeric status at
least 400 are appended to the network-error buffer only, those below 400
to the network-success buffer only; the all-xhr view sorts the union of
both network buffers ascending by timestamp, and the all-xhr query
returns an initial segment of that processed sorted union — the whole of
it whenever the header flags are on and its entries fit the query byte
budget. -/
theorem network_routing_and_allxhr (st : ServerState) (e : JsObj) (n : Int)
    (htype : isTypeTag e "network-request" = true)
    (hstatus : lookupField e "status" = some (.jnum n)) :
    (400 ≤ n →
      (ingestData st e).networkErrors
          = boundedAppend st.settings.logLimit st.networkErrors e ∧
        (ingestData st e).networkSuccess = st.networkSuccess) ∧
      (n < 400 →
        (ingestData st e).networkSuccess
            = boundedAppend st.settings.logLimit st.networkSuccess e ∧
          (ingestData st e).networkErrors = st.networkErrors) ∧
      List.Perm (allXhrMerged st) (st.networkSuccess ++ st.networkErrors) ∧
      List.Sorted tsLe (allXhrMerged st) ∧
      (∃ k, allXhrQuery st = (processLogsWithSettings st.settings (allXhrMerged st)).take k) ∧
      (st.settings.showRequestHeaders = true → st.settings.showResponseHeaders = true →
        sumLogSizes (allXhrMerged st) ≤ st.settings.queryLimit →
        allXhrQuery st = allXhrMerged st) := by
  have hlog : isTypeTag e "console-log" = false :=
    isTypeTag_ne e "network-request" "console-log" htype (by decide)
  have herr : isTypeTag e "console-error" = false :=
    isTypeTag_ne e "network-request" "console-error" htype (by decide)
  have hing : ingestData st e =
      if jsGe400 (lookupField e "status") then
        { st with networkErrors := boundedAppend st.settings.logLimit st.networkErrors e }
      else
        { st with networkSuccess := boundedAppend st.settings.logLimit st.networkSuccess e } := by
    simp [ingestData, hlog, herr, htype]
  have hge : jsGe400 (lookupField e "status") = decide (400 ≤ n) := by
    rw [hstatus]; rfl
  refine ⟨?_, ?_, List.perm_insertionSort tsLe _, List.sorted_insertionSort tsLe _,
    truncateLogsToQueryLimit_take st.settings (allXhrMerged st), ?_⟩
  · intro hn
    rw [hing, hge, decide_eq_true hn]
    exact ⟨rfl, rfl⟩
  · intro hn
    have : decide (400 ≤ n) = false := decide_eq_false (by omega)
    rw [hing, hge, this]
    simp only [Bool.false_eq_true, if_neg]
    exact ⟨rfl, rfl⟩
  · intro h1 h2 hsum
    have hproc : processLogsWithSettings st.settings (allXhrMerged st) = allXhrMerged st :=
      processLogsWithSettings_id st.settings h1 h2 (allXhrMerged st)
    by_cases hnil : (allXhrMerged st).length = 0
    · rw [allXhrQuery, truncateLogsToQueryLimit, if_pos hnil]
    · rw [allXhrQuery, truncateLogsToQueryLimit, if_neg hnil, hproc]
      exact takeLogsWithinLimit_all st.settings.queryLimit (allXhrMerged st) 0 (by omega)

/-- Witness for `network_routing_and_allxhr`: a 404 entry ingested into
the empty server lands in the error buffer and only there. -/
theorem network_routing_and_allxhr_witness :
    (ingestData serverInit e404).networkErrors = [e404] ∧
      (ingestData serverInit e404).networkSuccess = [] := by
  have h := (network_routing_and_allxhr serverInit e404 404 (by decide) (by decide)).1
    (by omega)
  exact ⟨h.1.trans (by decide), h.2⟩

/-- C9 counterexample: a network-request entry whose status is the
*string* `"500"` — not a number — is routed to the network-error buffer,
because the JS comparison `"500" >= 400` coerces the string to 500. -/
theorem nonnumeric_status_counterexample :
    lookupField eStr500 "status" = some (.jstr "500".toList) ∧
      (ingestData serverInit eStr500).networkErrors = [eStr500] ∧
      (ingestData serverInit eStr500).networkSuccess = [] := by
  decide

/-- C9 (amended). Routing of a network-request event follows the JS
coercing comparison `data.status >= 400`, stated on the statuses whose
coercion the model captures exactly: an event with an *absent* status is
appended to the network-success buffer with the network-error buffer
untouched (`undefined >= 400` is false, NaN); likewise any present
status whose JS numeric coercion is a number `m < 400` (null, booleans,
numbers below 400, decimal-integer strings below 400).  But a status —
number or not — whose coercion is a number `m >= 400`, such as the
string `"500"`, is appended to the network-error buffer with the success
buffer untouched, refuting the original claim's "not a number implies
success buffer".  Statuses whose coercion the model does not analyse
(whitespace-padded, exponent or hex strings, `Infinity`, arrays,
objects) fall outside these hypotheses and nothing is asserted about
them. -/
theorem status_routing_by_js_coercion (st : ServerState) (e : JsObj)
    (htype : isTypeTag e "network-request" = true) :
    (lookupField e "status" = none →
        (ingestData st e).networkSuccess
            = boundedAppend st.settings.logLimit st.networkSuccess e ∧
          (ingestData st e).networkErrors = st.networkErrors) ∧
      (∀ (j : Json) (m : Int), lookupField e "status" = some j → toNumber j = some m →
        m < 400 →
        (ingestData st e).networkSuccess
            = boundedAppend st.settings.logLimit st.networkSuccess e ∧
          (ingestData st e).networkErrors = st.networkErrors) ∧
      (∀ (j : Json) (m : Int), lookupField e "status" = some j → toNumber j = some m →
        400 ≤ m →
        (ingestData st e).networkErrors
            = boundedAppend st.settings.logLimit st.networkErrors e ∧
          (ingestData st e).networkSuccess = st.networkSuccess) := by
  have hlog : isTypeTag e "console-log" = false :=
    isTypeTag_ne e "network-request" "console-log" htype (by decide)
  have herr : isTypeTag e "console-error" = false :=
    isTypeTag_ne e "network-request" "console-error" htype (by decide)
  have hing : ingestData st e =
      if jsGe400 (lookupField e "status") then
        { st with networkErrors := boundedAppend st.settings.logLimit st.networkErrors e }
      else
        { st with networkSuccess := boundedAppend st.settings.logLimit st.networkSuccess e } := by
    simp [ingestData, hlog, herr, htype]
  refine ⟨?_, ?_, ?_⟩
  · intro habs
    have hfalse : jsGe400 (lookupField e "status") = false := by rw [habs]; rfl
    rw [hing, hfalse]
    simp only [Bool.false_eq_true, if_neg]
    exact ⟨rfl, rfl⟩
  · intro j m hj hm hlt
    have hfalse : jsGe400 (lookupField e "status") = false := by
      rw [hj]
      simp only [jsGe400, hm]
      exact decide_eq_false (by omega)
    rw [hing, hfalse]
    simp only [Bool.false_eq_true, if_neg]
    exact ⟨rfl, rfl⟩
  · intro j m hj hm hge
    have htrue : jsGe400 (lookupField e "status") = true := by
      rw [hj]
      simp only [jsGe400, hm]
      exact decide_eq_true hge
    rw [hing, htrue]
    exact ⟨rfl, rfl⟩

/-- Witness for `status_routing_by_js_coercion`: an entry with no status
field ingested into the empty server lands in the success buffer, and an
entry whose status is the string `"500"` lands in the error buffer. -/
theorem status_routing_by_js_coercion_witness :
    ((ingestData serverInit eNoStatus).networkSuccess
        = boundedAppend serverInit.settings.logLimit serverInit.networkSuccess eNoStatus ∧
      (ingestData serverInit eNoStatus).networkErrors = serverInit.networkErrors) ∧
      ((ingestData serverInit eStr500).networkErrors
          = boundedAppend serverInit.settings.logLimit serverInit.networkErrors eStr500 ∧
        (ingestData serverInit eStr500).networkSuccess = serverInit.networkSuccess) :=
  ⟨(status_routing_by_js_coercion serverInit eNoStatus (by decide)).1 (by decide),
    (status_routing_by_js_coercion serverInit eStr500 (by decide)).2.2
      (.jstr "500".toList) 500 (by decide) (by decide) (by decide)⟩

end BrowserTools
